import Mathlib

/-!
# Note synchronisation controller of `src/App.js`

A shallow embedding of the state handling in `src/App.js`: the `reducer`, the
handlers `fetchNotes`, `createNote`, `deleteNote`, `updateNote`, `onChange`
and the `next` callback of the `onCreateNote` subscription.

Modelling conventions.

* A handler closes over `state` and calls `dispatch`; `dispatch a` is modelled
  as `reducer · a` applied to the state the handler read, in program order.
* `client.graphql` is the environment: its answer is an argument
  (`Except String _`, `.error` for a rejected promise), and the request that was
  sent is recorded in the handler's `Outcome`.
* `uuid()` is the environment as well: `CLIENT_ID` and the identifier drawn in
  `createNote` are arguments.
* An `async` handler that throws (its promise is rejected) returns
  `Except.error`; a handler that runs to its end returns `Except.ok`.
* Notes are values: two notes with equal fields are equal.  The one statement
  whose effect depends on object identity is the in-place write of line 126:
  it changes the object stored at `notes[index]`, hence every position of the
  array that stores that same object (`deleteNote` on an identifier no note
  carries builds such an array).  Which positions those are is not visible in
  the values, so `updateNote` takes it as an argument, like the answers of the
  backend.
-/

namespace NotesApp

/-! ## Data model -/

/-- A note as the handlers read it.  `createNote` builds the five fields
`name`, `description`, `clientId`, `completed`, `id`; notes coming from the
backend may carry the timestamps and may lack a `clientId`. -/
structure Note where
  id : String
  name : String
  description : String
  completed : Bool
  clientId : Option String
  createdAt : Option String
  updatedAt : Option String
deriving DecidableEq, Repr, Inhabited

/-- The draft `form` of the state: the two keys the inputs write. -/
structure Form where
  name : String
  description : String
deriving DecidableEq, Repr, Inhabited

/-- The object held by `useReducer`. -/
structure State where
  notes : List Note
  loading : Bool
  error : Bool
  form : Form
deriving DecidableEq, Repr, Inhabited

/-- The constant `initialState` (lines 23-28). -/
def initialState : State :=
  { notes := [], loading := true, error := false,
    form := { name := "", description := "" } }

/-- An action object.  `type` is the tag the `switch` compares; the other
fields are the payload properties the reducer reads (`action.notes`,
`action.note`, `action.name`, `action.value`).  A dispatch site sets the ones
its case reads; the remaining ones keep their default and are never read. -/
structure Action where
  type : String
  notes : List Note := []
  note : Note := default
  name : String := ""
  value : String := ""
deriving DecidableEq, Repr, Inhabited

/-- The function `reducer` (lines 37-52): a `switch` on the string
`action.type`, strict string equality, `default` returning the state.  In the
`SET_INPUT` case the computed key `[action.name]` writes `name` or
`description`; any other key (the inputs of the page produce none) would add
a property outside the two of `Form` and leaves those two as they are. -/
def reducer (state : State) (action : Action) : State :=
  if action.type = "SET_NOTES" then
    { state with notes := action.notes, loading := false }
  else if action.type = "ADD_NOTE" then
    { state with notes := action.note :: state.notes }
  else if action.type = "RESET_FORM" then
    { state with form := initialState.form }
  else if action.type = "SET_INPUT" then
    { state with form :=
        if action.name = "name" then { state.form with name := action.value }
        else if action.name = "description" then
          { state.form with description := action.value }
        else state.form }
  else if action.type = "ERROR" then
    { state with loading := false, error := true }
  else
    state

/-! ## Array primitives used by the handlers -/

/-- Loop of `Array.prototype.findIndex` from position `k`: the index of the
first element satisfying `p`, and `-1` when the array is exhausted. -/
def findIndexFrom {α : Type} (p : α → Bool) : List α → Nat → Int
  | [], _ => -1
  | x :: xs, k => if p x then (k : Int) else findIndexFrom p xs (k + 1)

/-- The method `Array.prototype.findIndex`. -/
def findIndex {α : Type} (p : α → Bool) (l : List α) : Int :=
  findIndexFrom p l 0

/-- Relative index of `Array.prototype.slice`: a negative argument counts from
the end (`max (len + i) 0`), a non-negative one is capped at `len`. -/
def relIndex (len : Nat) (i : Int) : Nat :=
  if i < 0 then (max ((len : Int) + i) 0).toNat else min i.toNat len

/-- The call `arr.slice(start, stop)`. -/
def slice {α : Type} (l : List α) (start stop : Int) : List α :=
  let k := relIndex l.length start
  let fin := relIndex l.length stop
  (l.drop k).take (fin - k)

/-- The call `arr.slice(start)`: the end defaults to the length. -/
def sliceFrom {α : Type} (l : List α) (start : Int) : List α :=
  slice l start (l.length : Int)

/-- Property read `arr[i]` for an integer `i`: `undefined` (here `none`) for a
negative index or one past the end. -/
def index {α : Type} (l : List α) (i : Int) : Option α :=
  if i < 0 then none else l.get? i.toNat

/-! ## Handlers -/

/-- A request handed to `client.graphql`. -/
inductive Request where
  | listNotes
  | createNote (input : Note)
  | deleteNote (id : String)
  | updateNote (id : String) (completed : Bool)
deriving DecidableEq, Repr

/-- What a handler that ran to its end leaves behind: the state after its
dispatches, the backend requests it sent, the `alert` texts it showed and
the lines it wrote with `console.log`. -/
structure Outcome where
  state : State
  requests : List Request
  alerts : List String
  logs : List String
deriving DecidableEq, Repr

/-- The handler `fetchNotes` (lines 60-71).  `resp` is the answer of the
`listNotes` query: `.ok items` for `notesData.data.listNotes.items`, `.error`
for anything thrown inside the `try`. -/
def fetchNotes (state : State) (resp : Except String (List Note)) :
    Except String Outcome :=
  match resp with
  | .ok items =>
    .ok { state := reducer state { type := "SET_NOTES", notes := items },
          requests := [Request.listNotes], alerts := [], logs := [] }
  | .error err =>
    .ok { state := reducer state { type := "ERROR" },
          requests := [Request.listNotes], alerts := [],
          logs := ["error: " ++ err] }

/-- The handler `createNote` (lines 76-95).  `freshId` is the value of the
`uuid()` call of line 82, `resp` the answer of the create mutation. -/
def createNote (CLIENT_ID : String) (state : State) (freshId : String)
    (resp : Except String Unit) : Except String Outcome :=
  let form := state.form
  if form.name = "" ∨ form.description = "" then
    .ok { state := state, requests := [],
          alerts := ["please enter a name and description"], logs := [] }
  else
    let note : Note :=
      { name := form.name, description := form.description,
        clientId := some CLIENT_ID, completed := false, id := freshId,
        createdAt := none, updatedAt := none }
    let s1 := reducer state { type := "ADD_NOTE", note := note }
    let s2 := reducer s1 { type := "RESET_FORM " }
    match resp with
    | .ok _ =>
      .ok { state := s2, requests := [Request.createNote note], alerts := [],
            logs := ["Successfully Created Note!"] }
    | .error err =>
      .ok { state := s2, requests := [Request.createNote note], alerts := [],
            logs := ["Error: " ++ err] }

/-- The handler `deleteNote` (lines 100-117), called with an object whose
`id` property is `id`. -/
def deleteNote (state : State) (id : String) (resp : Except String Unit) :
    Except String Outcome :=
  let index := findIndex (fun n : Note => n.id == id) state.notes
  let notes := slice state.notes 0 index ++ sliceFrom state.notes (index + 1)
  let s1 := reducer state { type := "SET_NOTES", notes := notes }
  match resp with
  | .ok _ =>
    .ok { state := s1, requests := [Request.deleteNote id], alerts := [],
          logs := ["successfully deleted note!"] }
  | .error err =>
    .ok { state := s1, requests := [Request.deleteNote id], alerts := [],
          logs := [err] }

/-- The array after the in-place write of line 126, by position from `k`: a
position for which `hit` holds stores the written object and shows the new
`completed`; every other position stores another object and is as before. -/
def writeCompleted (hit : Nat → Bool) (v : Bool) : List Note → Nat → List Note
  | [], _ => []
  | n :: ns, k =>
    (if hit k then { n with completed := v } else n) :: writeCompleted hit v ns (k + 1)

/-- The handler `updateNote` (lines 122-138).  Line 126 assigns to
`notes[index].completed`; when `notes[index]` is `undefined` the assignment
throws a `TypeError` before anything is dispatched or sent.  Otherwise it
writes into the object stored at `index`: `shared j` tells whether position
`j` of `state.notes` stores that very object, so the written positions are
`index` and those with `shared j`. -/
def updateNote (state : State) (note : Note) (shared : Nat → Bool)
    (resp : Except String Unit) : Except String Outcome :=
  let i := findIndex (fun n : Note => n.id == note.id) state.notes
  let notes := state.notes
  match index notes i with
  | none =>
    .error "TypeError: Cannot set properties of undefined (setting 'completed')"
  | some _ =>
    let notes :=
      writeCompleted (fun j => decide ((j : Int) = i) || shared j)
        (!note.completed) notes 0
    let s1 := reducer state { type := "SET_NOTES", notes := notes }
    let sent := Request.updateNote note.id (!note.completed)
    match resp with
    | .ok _ =>
      .ok { state := s1, requests := [sent], alerts := [],
            logs := ["note successfully updated"] }
    | .error err =>
      .ok { state := s1, requests := [sent], alerts := [],
            logs := ["Error: " ++ err] }

/-- The input handler `onChange` (lines 142-144) for an event whose target
has the given `name` and `value`. -/
def onChange (state : State) (name value : String) : Except String Outcome :=
  .ok { state := reducer state { type := "SET_INPUT", name := name, value := value },
        requests := [], alerts := [], logs := [] }

/-- The `next` callback of the subscription (lines 174-178) for an event whose
`data.onCreateNote` is `note`. -/
def next (CLIENT_ID : String) (state : State) (note : Note) :
    Except String Outcome :=
  if some CLIENT_ID = note.clientId then
    .ok { state := state, requests := [], alerts := [], logs := [] }
  else
    .ok { state := reducer state { type := "ADD_NOTE", note := note },
          requests := [], alerts := [], logs := [] }

/-! ## Sessions -/

/-- One turn of the event queue: the answer to the initial fetch, a click on
one of the three buttons, a keystroke in an input, or a feed event.  A toggle
carries the positions that store the object it writes, as `updateNote` takes
them. -/
inductive Event where
  | fetched (resp : Except String (List Note))
  | create (freshId : String) (resp : Except String Unit)
  | delete (id : String) (resp : Except String Unit)
  | toggle (note : Note) (shared : Nat → Bool) (resp : Except String Unit)
  | input (name value : String)
  | feed (note : Note)

/-- The handler an event runs. -/
def handle (CLIENT_ID : String) (state : State) : Event → Except String Outcome
  | .fetched resp => fetchNotes state resp
  | .create freshId resp => createNote CLIENT_ID state freshId resp
  | .delete id resp => deleteNote state id resp
  | .toggle note shared resp => updateNote state note shared resp
  | .input name value => onChange state name value
  | .feed note => next CLIENT_ID state note

/-- State after one event.  A handler that throws has dispatched nothing (the
only throwing statement, line 126, precedes the dispatch of line 127), so the
state is the one before. -/
def step (CLIENT_ID : String) (state : State) (e : Event) : State :=
  match handle CLIENT_ID state e with
  | .ok o => o.state
  | .error _ => state

/-- State after a sequence of events. -/
def run (CLIENT_ID : String) (state : State) (es : List Event) : State :=
  es.foldl (step CLIENT_ID) state

/-! ## Example inputs -/

/-- The note of the end-to-end scenario of the specification. -/
def exMilk : Note :=
  { id := "a", name := "Milk", description := "buy", completed := false,
    clientId := none, createdAt := none, updatedAt := none }

/-- A second note, created by another client. -/
def exEggs : Note :=
  { id := "b", name := "Eggs", description := "dozen", completed := true,
    clientId := some "client-2", createdAt := none, updatedAt := none }

/-- A state still loading that already shows two notes. -/
def exTwo : State :=
  { notes := [exMilk, exEggs], loading := true, error := false,
    form := { name := "", description := "" } }

/-- A loaded state with two notes. -/
def exLoaded : State :=
  { notes := [exMilk, exEggs], loading := false, error := false,
    form := { name := "", description := "" } }

/-- The state `deleteNote` leaves when asked to delete from `exLoaded` an
identifier no note carries: the object of the note `a` at positions 0 and 1. -/
def exAliased : State :=
  { notes := [exMilk, exMilk, exEggs], loading := false, error := false,
    form := { name := "", description := "" } }

/-- A loaded state with one note and a filled draft. -/
def exDraft : State :=
  { notes := [exMilk], loading := false, error := false,
    form := { name := "Tea", description := "green" } }

/-- A state whose only note is completed. -/
def exDone : State :=
  { notes := [exEggs], loading := false, error := false,
    form := { name := "", description := "" } }

/-- A state after a failed fetch. -/
def exErrored : State :=
  { notes := [exMilk], loading := false, error := true,
    form := { name := "Tea", description := "" } }

/-! ## Facts about the array primitives -/

/-- When no element satisfies the predicate, the loop ends with `-1`. -/
theorem findIndexFrom_absent {α : Type} (p : α → Bool) (l : List α) (k : Nat)
    (h : ∀ x ∈ l, p x = false) : findIndexFrom p l k = -1 := by
  induction l generalizing k with
  | nil => rfl
  | cons x xs ih =>
    have hx : p x = false := h x (List.mem_cons_self x xs)
    have hxs : ∀ y ∈ xs, p y = false := fun y hy => h y (List.mem_cons_of_mem x hy)
    simp [findIndexFrom, hx, ih (k + 1) hxs]

/-- When some element satisfies the predicate, the loop returns the offset
plus the position of the first such element. -/
theorem findIndexFrom_present {α : Type} (p : α → Bool) (l : List α) (k : Nat)
    (h : ∃ x ∈ l, p x = true) :
    ∃ i x, i < l.length ∧ findIndexFrom p l k = ((k + i : Nat) : Int) ∧
      l[i]? = some x ∧ p x = true ∧
      ∀ j y, j < i → l[j]? = some y → p y = false := by
  induction l generalizing k with
  | nil => simp at h
  | cons a xs ih =>
    by_cases ha : p a = true
    · refine ⟨0, a, by simp, by simp [findIndexFrom, ha], by simp, ha, ?_⟩
      intro j y hj
      omega
    · have hxs : ∃ x ∈ xs, p x = true := by
        obtain ⟨x, hx, hpx⟩ := h
        rcases List.mem_cons.mp hx with rfl | hx
        · exact absurd hpx ha
        · exact ⟨x, hx, hpx⟩
      obtain ⟨i, x, hi, hf, hget, hpx, hlt⟩ := ih (k + 1) hxs
      refine ⟨i + 1, x, by simpa using hi, ?_, by simpa using hget, hpx, ?_⟩
      · simp only [findIndexFrom, ha]
        rw [hf]
        push_cast
        omega
      · intro j y hj hy
        cases j with
        | zero =>
          simp at hy
          subst hy
          simpa using ha
        | succ j =>
          simp at hy
          exact hlt j y (by omega) hy

/-- Absent case of `findIndex`. -/
theorem findIndex_absent {α : Type} (p : α → Bool) (l : List α)
    (h : ∀ x ∈ l, p x = false) : findIndex p l = -1 :=
  findIndexFrom_absent p l 0 h

/-- Present case of `findIndex`: the position of the first match. -/
theorem findIndex_present {α : Type} (p : α → Bool) (l : List α)
    (h : ∃ x ∈ l, p x = true) :
    ∃ i x, i < l.length ∧ findIndex p l = (i : Int) ∧
      l[i]? = some x ∧ p x = true ∧
      ∀ j y, j < i → l[j]? = some y → p y = false := by
  obtain ⟨i, x, hi, hf, hget, hpx, hlt⟩ := findIndexFrom_present p l 0 h
  exact ⟨i, x, hi, by simpa [findIndex] using hf, hget, hpx, hlt⟩

theorem relIndex_nat (len i : Nat) : relIndex len (i : Int) = min i len := by
  have h : ¬ ((i : Int) < 0) := by omega
  simp [relIndex, h]

theorem relIndex_neg_one (len : Nat) : relIndex len (-1) = len - 1 := by
  have h : ((-1 : Int) < 0) := by omega
  simp only [relIndex, h, if_true]
  omega

/-- For a natural `i`, `arr.slice(0, i)` is the first `i` elements. -/
theorem slice_zero_nat {α : Type} (l : List α) (i : Nat) :
    slice l 0 (i : Int) = l.take i := by
  have h0 : relIndex l.length 0 = 0 := by simpa using relIndex_nat l.length 0
  simp only [slice, h0, relIndex_nat, List.drop_zero, Nat.sub_zero]
  rw [List.take_eq_take]
  simp

/-- For a natural `i`, `arr.slice(i)` drops the first `i` elements. -/
theorem sliceFrom_nat {α : Type} (l : List α) (i : Nat) :
    sliceFrom l (i : Int) = l.drop i := by
  simp only [sliceFrom, slice, relIndex_nat]
  rcases Nat.le_total i l.length with h | h
  · rw [Nat.min_eq_left h, Nat.min_self]
    apply List.take_of_length_le
    simp
  · rw [Nat.min_eq_right h, Nat.min_self]
    simp [List.drop_of_length_le h]

/-- The call `arr.slice(0, -1)` is the array without its last element. -/
theorem slice_zero_neg_one {α : Type} (l : List α) :
    slice l 0 (-1) = l.dropLast := by
  have h0 : relIndex l.length 0 = 0 := by simpa using relIndex_nat l.length 0
  simp only [slice, h0, relIndex_neg_one, List.drop_zero, Nat.sub_zero]
  exact (List.dropLast_eq_take l).symm

/-- The array built by lines 102-105 for a natural index is the array with
that position erased. -/
theorem slices_eq_eraseIdx {α : Type} (l : List α) (i : Nat) :
    slice l 0 (i : Int) ++ sliceFrom l ((i : Int) + 1) = l.eraseIdx i := by
  have h : ((i : Int) + 1) = ((i + 1 : Nat) : Int) := by push_cast; rfl
  rw [h, slice_zero_nat, sliceFrom_nat, List.eraseIdx_eq_take_drop_succ]

/-- The array built by lines 102-105 for index `-1`: every element but the
last, followed by the whole array. -/
theorem slices_neg_one {α : Type} (l : List α) :
    slice l 0 (-1) ++ sliceFrom l ((-1 : Int) + 1) = l.dropLast ++ l := by
  have h : ((-1 : Int) + 1) = ((0 : Nat) : Int) := by simp
  rw [h, slice_zero_neg_one, sliceFrom_nat, List.drop_zero]

/-- The in-place write keeps the length of the array. -/
theorem length_writeCompleted (hit : Nat → Bool) (v : Bool) (l : List Note)
    (k : Nat) : (writeCompleted hit v l k).length = l.length := by
  induction l generalizing k with
  | nil => rfl
  | cons n ns ih => simp [writeCompleted, ih]

/-- After the in-place write, position `j` holds the note it held, with the new
`completed` exactly when the position is a written one. -/
theorem getElem?_writeCompleted (hit : Nat → Bool) (v : Bool) (l : List Note)
    (k j : Nat) :
    (writeCompleted hit v l k)[j]? =
      (l[j]?).map (fun n => if hit (k + j) then { n with completed := v } else n) := by
  induction l generalizing k j with
  | nil => simp [writeCompleted]
  | cons n ns ih =>
    cases j with
    | zero => simp [writeCompleted]
    | succ j =>
      simp only [writeCompleted, List.getElem?_cons_succ, ih]
      have hk : k + 1 + j = k + (j + 1) := by omega
      rw [hk]

/-! ## Facts about the reducer -/

theorem reducer_SET_NOTES (s : State) (a : Action) (h : a.type = "SET_NOTES") :
    reducer s a = { s with notes := a.notes, loading := false } := by
  simp [reducer, h]

theorem reducer_ADD_NOTE (s : State) (a : Action) (h : a.type = "ADD_NOTE") :
    reducer s a = { s with notes := a.note :: s.notes } := by
  simp [reducer, h]

theorem reducer_ERROR (s : State) (a : Action) (h : a.type = "ERROR") :
    reducer s a = { s with loading := false, error := true } := by
  simp [reducer, h]

/-- The tag `RESET_FORM ` with a trailing blank, dispatched by line 84,
matches no case: the reducer returns the state it was given. -/
theorem reducer_RESET_FORM_blank (s : State) (a : Action)
    (h : a.type = "RESET_FORM ") : reducer s a = s := by
  simp [reducer, h]

/-- No case of the reducer clears the error flag. -/
theorem reducer_error_persists (s : State) (a : Action) (h : s.error = true) :
    (reducer s a).error = true := by
  unfold reducer
  split_ifs <;> simp [h]

/-! ## Shape of each handler's result -/

/-- The handler `deleteNote` always runs to its end, and its state is the
one it read with `notes` replaced by the array of lines 102-105 and `loading`
cleared, whatever the backend answers. -/
theorem deleteNote_ok (s : State) (id : String) (resp : Except String Unit) :
    ∃ o, deleteNote s id resp = .ok o ∧
      o.state = { s with
        notes := slice s.notes 0 (findIndex (fun n : Note => n.id == id) s.notes) ++
          sliceFrom s.notes (findIndex (fun n : Note => n.id == id) s.notes + 1),
        loading := false } ∧
      o.requests = [Request.deleteNote id] := by
  cases resp <;> exact ⟨_, rfl, by simp [reducer], rfl⟩

/-- The handler `createNote` always runs to its end and never touches
`loading`, `error` or `form`. -/
theorem createNote_ok (cid : String) (s : State) (freshId : String)
    (resp : Except String Unit) :
    ∃ o, createNote cid s freshId resp = .ok o ∧ o.state.loading = s.loading ∧
      o.state.error = s.error ∧ o.state.form = s.form := by
  unfold createNote
  by_cases h : s.form.name = "" ∨ s.form.description = ""
  · simp [h]
  · cases resp <;> simp [h, reducer]

/-- The handler `fetchNotes` always runs to its end. -/
theorem fetchNotes_ok (s : State) (resp : Except String (List Note)) :
    ∃ o, fetchNotes s resp = .ok o := by
  cases resp <;> exact ⟨_, rfl⟩

/-- The callback `next` always runs to its end. -/
theorem next_ok (cid : String) (s : State) (note : Note) :
    ∃ o, next cid s note = .ok o := by
  unfold next
  split_ifs <;> exact ⟨_, rfl⟩

/-- With no note carrying `note.id`, line 126 of `updateNote` throws. -/
theorem updateNote_absent_throws (s : State) (note : Note) (shared : Nat → Bool)
    (resp : Except String Unit) (h : ∀ n ∈ s.notes, n.id ≠ note.id) :
    updateNote s note shared resp =
      .error "TypeError: Cannot set properties of undefined (setting 'completed')" := by
  have hf : findIndex (fun n : Note => n.id == note.id) s.notes = -1 :=
    findIndex_absent _ _ (fun n hn => by simpa using h n hn)
  simp [updateNote, hf, index]

/-- One event keeps a raised error flag raised. -/
theorem step_error_persists (cid : String) (s : State) (e : Event)
    (h : s.error = true) : (step cid s e).error = true := by
  cases e with
  | fetched resp =>
    cases resp <;> simp [step, handle, fetchNotes, reducer_error_persists, h]
  | create freshId resp =>
    obtain ⟨o, ho, _, he, _⟩ := createNote_ok cid s freshId resp
    simp [step, handle, ho, he, h]
  | delete id resp =>
    obtain ⟨o, ho, hs, _⟩ := deleteNote_ok s id resp
    simp [step, handle, ho, hs, h]
  | toggle note shared resp =>
    simp only [step, handle, updateNote]
    cases index s.notes (findIndex (fun n : Note => n.id == note.id) s.notes) with
    | none => simpa using h
    | some stored => cases resp <;> simp [reducer_error_persists, h]
  | input name value =>
    simp [step, handle, onChange, reducer_error_persists, h]
  | feed note =>
    simp only [step, handle, next]
    split_ifs <;> simp [reducer_error_persists, h]

/-- A sequence of events keeps a raised error flag raised. -/
theorem run_error_persists (cid : String) (es : List Event) (s : State)
    (h : s.error = true) : (run cid s es).error = true := by
  induction es generalizing s with
  | nil => simpa [run] using h
  | cons e es ih =>
    have := ih (step cid s e) (step_error_persists cid s e h)
    simpa [run] using this

/-- For a filled draft `createNote` runs to its end; its state is the one it
read with the new note in front (the second dispatch changes nothing), and
the new note is sent to the backend. -/
theorem createNote_filled (cid : String) (s : State) (freshId : String)
    (resp : Except String Unit)
    (hn : s.form.name ≠ "") (hd : s.form.description ≠ "") :
    ∃ o, createNote cid s freshId resp = .ok o ∧
      o.state = { s with notes :=
        { id := freshId, name := s.form.name, description := s.form.description,
          completed := false, clientId := some cid,
          createdAt := none, updatedAt := none } :: s.notes } ∧
      o.requests = [Request.createNote
        { id := freshId, name := s.form.name, description := s.form.description,
          completed := false, clientId := some cid,
          createdAt := none, updatedAt := none }] := by
  have h : ¬ (s.form.name = "" ∨ s.form.description = "") := by
    rintro (h | h)
    · exact hn h
    · exact hd h
  cases resp <;>
    exact ⟨_, by simp only [createNote, h, if_false]; rfl, by simp [reducer], rfl⟩

/-! ## Facts about erasing one position -/

/-- Erasing position `i` removes one occurrence of the element stored there and
no occurrence of anything else. -/
theorem count_eraseIdx_add {α : Type} [DecidableEq α] (l : List α) (i : Nat)
    (x : α) (h : l[i]? = some x) (n : α) :
    (l.eraseIdx i).count n + (if n = x then 1 else 0) = l.count n := by
  induction l generalizing i with
  | nil => simp at h
  | cons a t ih =>
    cases i with
    | zero =>
      simp at h
      subst h
      by_cases hn : n = a
      · subst hn
        simp
      · have hn2 : ¬ a = n := fun e => hn e.symm
        simp [List.count_cons, hn, hn2]
    | succ j =>
      simp at h
      have := ih j h
      simp only [List.eraseIdx_cons_succ, List.count_cons]
      omega

/-- With pairwise distinct identifiers, erasing the position of a note leaves
no note carrying its identifier. -/
theorem eraseIdx_no_id (l : List Note) (i : Nat) (x : Note)
    (h : l[i]? = some x) (hnd : (l.map Note.id).Nodup) :
    ∀ n ∈ l.eraseIdx i, n.id ≠ x.id := by
  induction l generalizing i with
  | nil => simp at h
  | cons a t ih =>
    simp only [List.map_cons, List.nodup_cons, List.mem_map, not_exists, not_and] at hnd
    cases i with
    | zero =>
      simp at h
      subst h
      intro n hn
      simp only [List.eraseIdx_cons_zero] at hn
      exact hnd.1 n hn
    | succ j =>
      simp at h
      intro n hn
      simp only [List.eraseIdx_cons_succ, List.mem_cons] at hn
      rcases hn with rfl | hn
      · have hx : x ∈ t := List.getElem?_mem h
        exact fun e => hnd.1 x hx e.symm
      · exact ih j h hnd.2 n hn

/-- With no note carrying `id`, `findIndex` gives `-1` and lines 102-105 build
every note but the last followed by all notes. -/
theorem deleteNote_missing_id (s : State) (id : String)
    (resp : Except String Unit) (h : ∀ n ∈ s.notes, n.id ≠ id) :
    ∃ o, deleteNote s id resp = .ok o ∧
      o.state = { s with notes := s.notes.dropLast ++ s.notes, loading := false } := by
  have hf : findIndex (fun n : Note => n.id == id) s.notes = -1 :=
    findIndex_absent _ _ (fun n hn => by simpa using h n hn)
  obtain ⟨o, ho, hs, _⟩ := deleteNote_ok s id resp
  refine ⟨o, ho, ?_⟩
  rw [hs, hf, slices_neg_one]

/-! ## The claims -/

/-- C5: for a draft with non-empty name and description, `createNote` runs to
its end and its notes are the new note followed by the previous notes in their
order; the new note has `completed = false`, `clientId = CLIENT_ID`, the drawn
identifier and the draft's name and description; that note is what is sent to
the backend, and the state is the same whatever the backend answers. -/
theorem createNote_prepends (CLIENT_ID : String) (s : State) (freshId : String)
    (resp : Except String Unit)
    (hn : s.form.name ≠ "") (hd : s.form.description ≠ "") :
    ∃ o, createNote CLIENT_ID s freshId resp = .ok o ∧
      o.state.notes =
        { id := freshId, name := s.form.name, description := s.form.description,
          completed := false, clientId := some CLIENT_ID,
          createdAt := none, updatedAt := none } :: s.notes ∧
      o.requests = [Request.createNote
        { id := freshId, name := s.form.name, description := s.form.description,
          completed := false, clientId := some CLIENT_ID,
          createdAt := none, updatedAt := none }] ∧
      ∀ resp2, ∃ o2, createNote CLIENT_ID s freshId resp2 = .ok o2 ∧
        o2.state = o.state := by
  obtain ⟨o, ho, hs, hr⟩ := createNote_filled CLIENT_ID s freshId resp hn hd
  refine ⟨o, ho, by rw [hs], hr, ?_⟩
  intro resp2
  obtain ⟨o2, ho2, hs2, _⟩ := createNote_filled CLIENT_ID s freshId resp2 hn hd
  exact ⟨o2, ho2, by rw [hs2, hs]⟩

/-- Witness for C5 on the filled draft `exDraft`, with the backend rejecting
the create request. -/
theorem createNote_prepends_witness :
    (createNote "client-1" exDraft "id-1" (.error "offline")).map
        (fun o => o.state.notes) =
      .ok [{ id := "id-1", name := "Tea", description := "green",
             completed := false, clientId := some "client-1",
             createdAt := none, updatedAt := none }, exMilk] := by
  obtain ⟨o, ho, hnotes, _, _⟩ :=
    createNote_prepends "client-1" exDraft "id-1" (.error "offline")
      (by decide) (by decide)
  rw [ho]
  simp only [Except.map, hnotes]
  rfl

/-- C6: for a draft with an empty name or an empty description, `createNote`
shows the alert and returns: the state (notes and draft included) is the one
it read and no backend request is sent. -/
theorem createNote_blank (CLIENT_ID : String) (s : State) (freshId : String)
    (resp : Except String Unit)
    (h : s.form.name = "" ∨ s.form.description = "") :
    createNote CLIENT_ID s freshId resp =
      .ok { state := s, requests := [],
            alerts := ["please enter a name and description"], logs := [] } := by
  simp [createNote, h]

/-- Witness for C6 on `exErrored`, whose description is empty. -/
theorem createNote_blank_witness :
    createNote "client-1" exErrored "id-1" (.ok ()) =
      .ok { state := exErrored, requests := [],
            alerts := ["please enter a name and description"], logs := [] } :=
  createNote_blank "client-1" exErrored "id-1" (.ok ()) (Or.inr (by decide))

/-- C7: the feed callback runs to its end; an event whose `clientId` is
`CLIENT_ID` leaves the notes as they were, any other event puts its note in
front of the previous notes; `loading`, `error` and the draft are unchanged in
both cases. -/
theorem next_echo_or_prepend (CLIENT_ID : String) (s : State) (note : Note) :
    ∃ o, next CLIENT_ID s note = .ok o ∧
      (note.clientId = some CLIENT_ID → o.state.notes = s.notes) ∧
      (note.clientId ≠ some CLIENT_ID → o.state.notes = note :: s.notes) ∧
      o.state.loading = s.loading ∧ o.state.error = s.error ∧
      o.state.form = s.form := by
  unfold next
  by_cases h : some CLIENT_ID = note.clientId
  · refine ⟨_, by simp only [h, if_true]; rfl, fun _ => rfl, ?_, rfl, rfl, rfl⟩
    intro hne
    exact absurd h.symm hne
  · refine ⟨_, by simp only [h, if_false]; rfl, ?_, by simp [reducer],
      by simp [reducer], by simp [reducer], by simp [reducer]⟩
    intro he
    exact absurd he.symm h

/-- Witness for C7: the note of `client-2` is dropped when it arrives at
`client-2` itself and is put in front when it arrives at `client-1`. -/
theorem next_echo_or_prepend_witness :
    (next "client-2" exDraft exEggs).map (fun o => o.state.notes) =
      .ok [exMilk] ∧
    (next "client-1" exDraft exEggs).map (fun o => o.state.notes) =
      .ok [exEggs, exMilk] := by
  constructor
  · obtain ⟨o, ho, hecho, _, _⟩ := next_echo_or_prepend "client-2" exDraft exEggs
    rw [ho]
    simp only [Except.map, hecho rfl]
    rfl
  · obtain ⟨o, ho, _, hother, _⟩ := next_echo_or_prepend "client-1" exDraft exEggs
    rw [ho]
    simp only [Except.map, hother (by decide)]
    rfl

/-- C9: a successful fetch applied to the initial state yields exactly the
returned notes in the received order, `loading = false`, `error = false` and
the initial (empty) draft. -/
theorem fetchNotes_success (items : List Note) :
    fetchNotes initialState (.ok items) =
      .ok { state := { notes := items, loading := false, error := false,
                       form := initialState.form },
            requests := [Request.listNotes], alerts := [], logs := [] } := by
  simp [fetchNotes, reducer, initialState]

/-- C10: a failed fetch yields `error = true`, `loading = false` and the notes
it found; and once `error = true`, every reducer action and every sequence of
events leaves `error = true`. -/
theorem fetch_failure_persists (CLIENT_ID : String) (s : State) (err : String)
    (a : Action) (es : List Event) :
    (∃ o, fetchNotes s (.error err) = .ok o ∧ o.state.error = true ∧
      o.state.loading = false ∧ o.state.notes = s.notes) ∧
    (s.error = true →
      (reducer s a).error = true ∧ (run CLIENT_ID s es).error = true) := by
  refine ⟨⟨_, rfl, by simp [reducer], by simp [reducer], by simp [reducer]⟩, ?_⟩
  intro h
  exact ⟨reducer_error_persists s a h, run_error_persists CLIENT_ID es s h⟩

/-- Witness for C10: the errored state stays errored
through a successful later fetch, a draft edit, a toggle and a feed event. -/
theorem fetch_failure_persists_witness :
    (reducer exErrored { type := "SET_NOTES", notes := [] }).error = true ∧
    (run "client-1" exErrored
      [Event.fetched (.ok [exEggs]), Event.input "description" "green",
       Event.create "id-1" (.ok ()), Event.toggle exEggs (fun _ => false) (.ok ()),
       Event.delete "a" (.error "offline"), Event.feed exMilk]).error = true :=
  (fetch_failure_persists "client-1" exErrored "offline"
    { type := "SET_NOTES", notes := [] }
    [Event.fetched (.ok [exEggs]), Event.input "description" "green",
     Event.create "id-1" (.ok ()), Event.toggle exEggs (fun _ => false) (.ok ()),
     Event.delete "a" (.error "offline"), Event.feed exMilk]).2 (by decide)

/-- C8: when some note carries `id`, `deleteNote` runs to its end; with `i` the
position of the first such note, the resulting notes are the previous ones
with position `i` erased: one shorter, a subsequence of the previous notes in
their order, with one occurrence less of the located note and the same
occurrences of every other note (and, when identifiers are pairwise distinct,
with no note carrying `id`); the state is the same whatever the backend
answers. -/
theorem deleteNote_present (s : State) (id : String) (resp : Except String Unit)
    (h : ∃ n ∈ s.notes, n.id = id) :
    ∃ (o : Outcome) (i : Nat) (located : Note), deleteNote s id resp = .ok o ∧
      findIndex (fun n : Note => n.id == id) s.notes = (i : Int) ∧
      s.notes[i]? = some located ∧ located.id = id ∧
      (∀ j n, j < i → s.notes[j]? = some n → n.id ≠ id) ∧
      o.state.notes = s.notes.eraseIdx i ∧
      o.state.notes.length + 1 = s.notes.length ∧
      o.state.notes.Sublist s.notes ∧
      (∀ n, o.state.notes.count n + (if n = located then 1 else 0) =
        s.notes.count n) ∧
      ((s.notes.map Note.id).Nodup → ∀ n ∈ o.state.notes, n.id ≠ id) ∧
      ∀ resp2, ∃ o2, deleteNote s id resp2 = .ok o2 ∧ o2.state = o.state := by
  have hp : ∃ n ∈ s.notes, (fun n : Note => n.id == id) n = true := by
    obtain ⟨n, hn, hid⟩ := h
    exact ⟨n, hn, by simpa using hid⟩
  obtain ⟨i, x, hi, hf, hget, hpx, hlt⟩ := findIndex_present _ _ hp
  obtain ⟨o, ho, hs, _⟩ := deleteNote_ok s id resp
  have hnotes : o.state.notes = s.notes.eraseIdx i := by
    rw [hs, hf]
    exact slices_eq_eraseIdx s.notes i
  have hxid : x.id = id := by simpa using hpx
  refine ⟨o, i, x, ho, hf, hget, hxid, ?_, hnotes, ?_, ?_, ?_, ?_, ?_⟩
  · intro j n hj hn
    simpa using hlt j n hj hn
  · rw [hnotes, List.length_eraseIdx]
    simp only [hi, if_true]
    omega
  · rw [hnotes]
    exact List.eraseIdx_sublist s.notes i
  · intro n
    rw [hnotes]
    exact count_eraseIdx_add s.notes i x hget n
  · intro hnd n hn
    rw [hnotes] at hn
    rw [← hxid]
    exact eraseIdx_no_id s.notes i x hget hnd n hn
  · intro resp2
    obtain ⟨o2, ho2, hs2, _⟩ := deleteNote_ok s id resp2
    exact ⟨o2, ho2, by rw [hs2, hs]⟩

/-- Witness for C8: deleting `b` from the two notes of `exTwo`
leaves the note `a`, also when the backend rejects the request. -/
theorem deleteNote_present_witness :
    (deleteNote exTwo "b" (.error "offline")).map (fun o => o.state.notes) =
      .ok [exMilk] := by
  obtain ⟨o, i, located, ho, hf, _, _, _, hnotes, _⟩ :=
    deleteNote_present exTwo "b" (.error "offline") ⟨exEggs, by decide, rfl⟩
  have hi : i = 1 := by
    have h1 : findIndex (fun n : Note => n.id == "b") exTwo.notes = 1 := by decide
    rw [h1] at hf
    exact_mod_cast hf.symm
  rw [ho]
  simp only [Except.map, hnotes, hi]
  rfl


/-- C1, the code on an identifier no note carries: no note of `exLoaded`
carries `z`, yet `deleteNote` turns its notes `[a, b]` into `[a, a, b]`
(`findIndex` gives `-1`, and lines 102-105 then take `slice(0, -1)` followed
by `slice(0)`), so the state is not the one before. -/
theorem deleteNote_absent_duplicates :
    (∀ n ∈ exLoaded.notes, n.id ≠ "z") ∧
    deleteNote exLoaded "z" (.ok ()) =
      .ok { state := { notes := [exMilk, exMilk, exEggs], loading := false,
                       error := false, form := { name := "", description := "" } },
            requests := [Request.deleteNote "z"], alerts := [],
            logs := ["successfully deleted note!"] } ∧
    ({ notes := [exMilk, exMilk, exEggs], loading := false, error := false,
       form := { name := "", description := "" } } : State) ≠ exLoaded :=
  ⟨by decide, rfl, by decide⟩

/-- C3, as amended: when some note carries `note.id`, `updateNote` runs to its
end; with `i` the position of the first such note, the resulting notes have
the same length; position `i`, and every position storing the same object,
holds the note it held with `completed` set to the negation of the argument's
`completed` (the negation of the stored flag when the two agree); every
position storing another object, and the fields `error` and `form`, are
unchanged; the state is the same whatever the backend answers. -/
theorem updateNote_present (s : State) (note : Note) (shared : Nat → Bool)
    (resp : Except String Unit) (h : ∃ n ∈ s.notes, n.id = note.id) :
    ∃ (o : Outcome) (i : Nat) (stored : Note),
      updateNote s note shared resp = .ok o ∧
      findIndex (fun n : Note => n.id == note.id) s.notes = (i : Int) ∧
      s.notes[i]? = some stored ∧ stored.id = note.id ∧
      (∀ j n, j < i → s.notes[j]? = some n → n.id ≠ note.id) ∧
      o.state.notes.length = s.notes.length ∧
      o.state.notes[i]? = some { stored with completed := !note.completed } ∧
      (∀ j n, shared j = true → s.notes[j]? = some n →
        o.state.notes[j]? = some { n with completed := !note.completed }) ∧
      (∀ j, j ≠ i → shared j = false → o.state.notes[j]? = s.notes[j]?) ∧
      (note.completed = stored.completed →
        o.state.notes[i]? = some { stored with completed := !stored.completed }) ∧
      o.state.error = s.error ∧ o.state.form = s.form ∧
      o.requests = [Request.updateNote note.id (!note.completed)] ∧
      ∀ resp2, ∃ o2, updateNote s note shared resp2 = .ok o2 ∧
        o2.state = o.state := by
  have hp : ∃ n ∈ s.notes, (fun n : Note => n.id == note.id) n = true := by
    obtain ⟨n, hn, hid⟩ := h
    exact ⟨n, hn, by simpa using hid⟩
  obtain ⟨i, x, hi, hf, hget, hpx, hlt⟩ := findIndex_present _ _ hp
  have hidx : index s.notes (i : Int) = some x := by
    have hneg : ¬ ((i : Int) < 0) := by omega
    simp [index, hneg, hget]
  have hrun : ∀ r : Except String Unit, ∃ o, updateNote s note shared r = .ok o ∧
      o.state = { s with
        notes := writeCompleted (fun j => decide ((j : Int) = (i : Int)) || shared j)
          (!note.completed) s.notes 0,
        loading := false } ∧
      o.requests = [Request.updateNote note.id (!note.completed)] := by
    intro r
    cases r <;>
      exact ⟨_, by simp only [updateNote, hf, hidx]; rfl, by simp [reducer], rfl⟩
  obtain ⟨o, ho, hs, hr⟩ := hrun resp
  have hxid : x.id = note.id := by simpa using hpx
  have hat : o.state.notes[i]? = some { x with completed := !note.completed } := by
    rw [hs]
    simp [getElem?_writeCompleted, hget]
  refine ⟨o, i, x, ho, hf, hget, hxid, ?_, ?_, hat, ?_, ?_, ?_, by rw [hs],
    by rw [hs], hr, ?_⟩
  · intro j n hj hn
    simpa using hlt j n hj hn
  · rw [hs]
    simp [length_writeCompleted]
  · intro j n hj hn
    rw [hs]
    simp [getElem?_writeCompleted, hn, hj]
  · intro j hj hsh
    rw [hs]
    cases hn : s.notes[j]? with
    | none => simp [getElem?_writeCompleted, hn]
    | some n => simp [getElem?_writeCompleted, hn, hj, hsh]
  · intro hc
    rw [hat, hc]
  · intro resp2
    obtain ⟨o2, ho2, hs2, _⟩ := hrun resp2
    exact ⟨o2, ho2, by rw [hs2, hs]⟩

/-- Witness for C3 on `exAliased`, where positions 0 and 1 store the object of
the note `a`: the toggle of `a` marks both completed and leaves `b` alone. -/
theorem updateNote_present_witness :
    (updateNote exAliased exMilk (fun j => j == 1) (.ok ())).map
        (fun o => (o.state.notes[0]?, o.state.notes[1]?, o.state.notes[2]?)) =
      .ok (some { exMilk with completed := true },
           some { exMilk with completed := true }, some exEggs) := by
  obtain ⟨o, i, stored, ho, hf, hget, _, _, _, _, hsame, hother, hagree, _⟩ :=
    updateNote_present exAliased exMilk (fun j => j == 1) (.ok ())
      ⟨exMilk, by decide, rfl⟩
  have hi : i = 0 := by
    have h1 : findIndex (fun n : Note => n.id == exMilk.id) exAliased.notes = 0 := by
      decide
    rw [h1] at hf
    exact_mod_cast hf.symm
  subst hi
  have hst : stored = exMilk := by
    have h2 : exAliased.notes[0]? = some exMilk := rfl
    rw [h2] at hget
    exact (Option.some.inj hget).symm
  subst hst
  have h0 := hagree rfl
  have h1 := hsame 1 exMilk rfl rfl
  have h2 := hother 2 (by decide) rfl
  rw [ho]
  simp only [Except.map, h0, h1, h2]
  rfl

/-- Counterexample to C3 as stated: the only note of `exDone` carries `b` and
is stored with `completed = true`; `updateNote` called with a note of
identifier `b` whose own flag is `false` leaves the stored flag `true`, not
negated. -/
theorem updateNote_present_counterexample :
    (∃ n ∈ exDone.notes, n.id = "b") ∧ exDone.notes = [exEggs] ∧
    exEggs.completed = true ∧
    updateNote exDone { exEggs with completed := false } (fun _ => false) (.ok ()) =
      .ok { state := { exDone with notes := [{ exEggs with completed := true }] },
            requests := [Request.updateNote "b" true], alerts := [],
            logs := ["note successfully updated"] } :=
  ⟨⟨exEggs, by decide, rfl⟩, rfl, rfl, rfl⟩

/-- C2, the code on a filled draft: after `createNote` the draft of `exDraft`
still reads `Tea` / `green`; line 84 dispatches the tag `RESET_FORM ` with a
trailing blank, which no case of the reducer matches. -/
theorem createNote_keeps_draft :
    createNote "client-1" exDraft "id-1" (.ok ()) =
      .ok { state :=
              { notes := [{ id := "id-1", name := "Tea", description := "green",
                            completed := false, clientId := some "client-1",
                            createdAt := none, updatedAt := none }, exMilk],
                loading := false, error := false,
                form := { name := "Tea", description := "green" } },
            requests := [Request.createNote
              { id := "id-1", name := "Tea", description := "green",
                completed := false, clientId := some "client-1",
                createdAt := none, updatedAt := none }],
            alerts := [], logs := ["Successfully Created Note!"] } :=
  rfl

/-- C4, the code on an identifier no note carries: `updateNote` called on the
initial state (no notes) with the note `a` throws at line 126 instead of
returning a state. -/
theorem updateNote_throws_on_absent :
    updateNote initialState exMilk (fun _ => false) (.ok ()) =
      .error "TypeError: Cannot set properties of undefined (setting 'completed')" :=
  rfl

end NotesApp
